import Mathlib

/-!
Verification development for the optimistic-rollup node core:
the state-transition engine (`core/src/app/client/state-manager.ts`)
and the execution bridge (`rollup-full-node/src/app/handler.ts`).

Conventions of the embedding:
* bn.js big numbers are arbitrary-precision, so coordinates and block
  numbers are `Nat`;
* JS objects returned by predicate plugins are modelled as references
  (`Ref := Nat`) into an explicit heap `deref : Ref → StateUpdate`;
  JS strict `!==` on objects compares references, while value identity
  compares the dereferenced `StateUpdate`s;
* `throw` is modelled with `Except`, one constructor per error family
  named after the spec's error taxonomy;
* hex strings are modelled as byte lists (`List Nat`), with the `0x`
  prefix handling (`add0x` / `remove0x`) dropped at the byte level.
-/

namespace Spec2Proof

/-! ### Data model (core/src/interfaces, spec section 3) -/

/-- Half-open interval `[start, end)`.  The source field `end` is a Lean
keyword, rendered `end_` here. -/
structure Range where
  start : Nat
  end_ : Nat
deriving DecidableEq, Repr

/-- Opaque payload naming the predicate governing a range. -/
structure StateObject where
  predicate : Nat
  parameters : Nat
deriving DecidableEq, Repr

/-- A claim that `stateObject` holds over `range` as of `plasmaBlockNumber`
(field name as in the source). -/
structure StateUpdate where
  range : Range
  stateObject : StateObject
  plasmaBlockNumber : Nat
deriving DecidableEq, Repr

/-- A StateUpdate confirmed valid through `verifiedBlockNumber`. -/
structure VerifiedStateUpdate where
  stateUpdate : StateUpdate
  verifiedBlockNumber : Nat
deriving DecidableEq, Repr

/-- A client's request to advance state over a sub-range; the
predicate-specific body is opaque. -/
structure Transaction where
  range : Range
  body : Nat
deriving DecidableEq, Repr

/-- A JS object reference.  Two references may dereference to equal
`StateUpdate` values while being distinct objects. -/
abbrev Ref := Nat

/-- The JS heap: which `StateUpdate` value a reference holds. -/
abbrev Heap := Ref → StateUpdate

/-- A predicate plugin: `executeStateTransition(update, verifiedBlockNumber, tx)`
returns (a reference to) a candidate StateUpdate object. -/
structure PredicatePlugin where
  executeStateTransition : StateUpdate → Nat → Transaction → Ref

/-- `pluginManager.getPlugin(predicateId)`. -/
abbrev PluginManager := Nat → PredicatePlugin

/-- `stateDB.getVerifiedStateUpdates(start, end)`. -/
abbrev StateDB := Nat → Nat → List VerifiedStateUpdate

/-- Errors thrown by `DefaultStateManager.executeTransaction`, named after
the spec's taxonomy (the source throws `Error` with a message per site). -/
inductive EngineError
  | invalidTransaction
  | invalidVerifiedUpdate
  | rangeMismatch
  | blockNumberMismatch
  | inconsistentTransition
deriving DecidableEq, Repr

/-- Modelled from the spec: `isValidTransaction` is imported from
`core/src/app/common/utils`, which is not under `src/`.  Spec section 4.1:
a transaction is well-formed when `range.start < range.end` and the
predicate reference is present (always present in this model's total
fields). -/
def isValidTransaction (t : Transaction) : Bool :=
  decide (t.range.start < t.range.end_)

/-- Modelled from the spec: `isValidVerifiedStateUpdate` is imported from
`core/src/app/common/utils`, which is not under `src/`.  Spec section 3:
the Range invariant is `start < end`. -/
def isValidVerifiedStateUpdate (v : VerifiedStateUpdate) : Bool :=
  decide (v.stateUpdate.range.start < v.stateUpdate.range.end_)

/-- The accumulating result object of `executeTransaction`
(`{stateUpdate: undefined, validRanges: []}` initially); `stateUpdate`
holds a reference to the accepted candidate object. -/
structure ExecResult where
  stateUpdate : Option Ref
  validRanges : List Range
deriving DecidableEq, Repr

/-- The sub-range pushed at state-manager.ts lines 97-100:
`{start: BigNum.max(start, verifiedStart), end: BigNum.min(end, verifiedEnd)}`. -/
def clipRange (tx : Transaction) (v : VerifiedStateUpdate) : Range :=
  ⟨max tx.range.start v.stateUpdate.range.start,
   min tx.range.end_ v.stateUpdate.range.end_⟩

/-- One iteration of the `for (const verifiedUpdate of verifiedUpdates)`
loop of `DefaultStateManager.executeTransaction` (state-manager.ts
lines 55-112): well-formedness check, overlap check
(`verifiedEnd.lte(start) || verifiedStart.gte(end)`), plugin dispatch,
block-number check against `verifiedBlockNumber + 1`, push of the clipped
range, then the strict `!==` single-result check on the accumulated
object reference. -/
def processUpdate (deref : Heap) (plugins : PluginManager) (tx : Transaction)
    (acc : ExecResult) (v : VerifiedStateUpdate) : Except EngineError ExecResult :=
  if ¬ isValidVerifiedStateUpdate v then
    .error .invalidVerifiedUpdate
  else if v.stateUpdate.range.end_ ≤ tx.range.start ∨ tx.range.end_ ≤ v.stateUpdate.range.start then
    .error .rangeMismatch
  else
    let computedRef : Ref :=
      (plugins v.stateUpdate.stateObject.predicate).executeStateTransition
        v.stateUpdate v.verifiedBlockNumber tx
    if (deref computedRef).plasmaBlockNumber ≠ v.verifiedBlockNumber + 1 then
      .error .blockNumberMismatch
    else
      let vr := acc.validRanges ++ [clipRange tx v]
      match acc.stateUpdate with
      | none => .ok ⟨some computedRef, vr⟩
      | some r => if r ≠ computedRef then .error .inconsistentTransition else .ok ⟨some r, vr⟩

/-- The loop of `executeTransaction`, processing the store's updates in
order, propagating the first thrown error. -/
def processAll (deref : Heap) (plugins : PluginManager) (tx : Transaction) :
    ExecResult → List VerifiedStateUpdate → Except EngineError ExecResult
  | acc, [] => .ok acc
  | acc, v :: rest =>
    match processUpdate deref plugins tx acc v with
    | .error e => .error e
    | .ok acc' => processAll deref plugins tx acc' rest

/-- `DefaultStateManager.executeTransaction` (state-manager.ts lines
33-115): validity precondition, then query
`stateDB.getVerifiedStateUpdates(tx.range.start, tx.range.end)` and run
the loop starting from `{stateUpdate: undefined, validRanges: []}`. -/
def executeTransaction (deref : Heap) (plugins : PluginManager)
    (stateDB : StateDB) (tx : Transaction) : Except EngineError ExecResult :=
  if ¬ isValidTransaction tx then
    .error .invalidTransaction
  else
    processAll deref plugins tx ⟨none, []⟩ (stateDB tx.range.start tx.range.end_)

/-- Two half-open ranges are disjoint. -/
def rangesDisjoint (r₁ r₂ : Range) : Prop :=
  r₁.end_ ≤ r₂.start ∨ r₂.end_ ≤ r₁.start

instance : DecidablePred fun p : Range × Range => rangesDisjoint p.1 p.2 := by
  intro p
  unfold rangesDisjoint
  infer_instance

instance (r₁ r₂ : Range) : Decidable (rangesDisjoint r₁ r₂) := by
  unfold rangesDisjoint
  infer_instance

/-! ### Execution bridge (rollup-full-node/src/app/handler.ts) -/

/-- External collaborator `remove0x` from the core-utils package: strips a
leading `0x` from a hex string (written over the underlying character
list so that it evaluates in the kernel). -/
def remove0x (s : String) : String :=
  if s.data.take 2 = ['0', 'x'] then ⟨s.data.drop 2⟩ else s

/-- `DefaultWeb3Handler.getExecutionMgrTxData` (handler.ts lines 380-393)
at the byte level: the selector bytes (output of the external ABI
library's `methodID('executeCall', [])`, passed as a parameter since the
keccak computation is an external collaborator), then
`timestamp = '00'.repeat(32)`, `origin = '00'.repeat(32)`,
`encodedEntrypoint = '00'.repeat(12) + remove0x(ovmEntrypoint)`, then the
original calldata.  The function takes no timestamp or queue-origin
input. -/
def getExecutionMgrTxData (methodId ovmEntrypoint ovmCalldata : List Nat) : List Nat :=
  methodId ++ List.replicate 32 0 ++ List.replicate 32 0 ++
    (List.replicate 12 0 ++ ovmEntrypoint) ++ ovmCalldata

/-- The internal calldata forwarded by `DefaultWeb3Handler.call`
(handler.ts lines 130-157): `getExecutionMgrTxData(txObject.to, txObject.data)`. -/
def callInternalCalldata (methodId to_ data : List Nat) : List Nat :=
  getExecutionMgrTxData methodId to_ data

/-- The internal calldata forwarded by `DefaultWeb3Handler.estimateGas`
(handler.ts lines 159-187): `getExecutionMgrTxData(txObject.to, txObject.data)`. -/
def estimateGasInternalCalldata (methodId to_ data : List Nat) : List Nat :=
  getExecutionMgrTxData methodId to_ data

/-- The calldata of the internal transaction built by
`DefaultWeb3Handler.ovmTxToInternalTx` (handler.ts lines 318-346):
`getExecutionMgrTxData(ovmEntrypoint, ovmTx.data)` where the entrypoint
is `ZERO_ADDRESS` (20 zero bytes) when `ovmTx.to` is null. -/
def internalTxData (methodId : List Nat) (to_ : Option (List Nat)) (data : List Nat) : List Nat :=
  getExecutionMgrTxData methodId
    (match to_ with
     | none => List.replicate 20 0
     | some a => a)
    data

/-- Modelled from the spec: the generic four-field calldata packing of
the wire contract (spec section 4.2, "Calldata packing"), with explicit
timestamp and queueOrigin fields.  Only its zero-timestamp,
zero-queue-origin specialization (`getExecutionMgrTxData`) is under
`src/`; the general encoder is exercised by the on-chain ExecutionManager
and its tests, which are not under `src/`. -/
def encodeExecutionMgrCalldata (methodId timestamp queueOrigin ovmEntrypoint ovmCalldata : List Nat) :
    List Nat :=
  methodId ++ timestamp ++ queueOrigin ++ (List.replicate 12 0 ++ ovmEntrypoint) ++ ovmCalldata

/-- Modelled from the spec: the decoder of the packed calldata lives in
the on-chain ExecutionManager (sandbox), not under `src/`.  Per the wire
layout it reads, after the 4-byte selector: a 32-byte timestamp, a
32-byte queueOrigin, a 32-byte zero-padded address whose last 20 bytes
are the rollup entrypoint, and all remaining bytes as the original
calldata. -/
def decodeExecutionMgrCalldata (packed : List Nat) :
    List Nat × List Nat × List Nat × List Nat :=
  let rest := packed.drop 4
  let timestamp := rest.take 32
  let queueOrigin := (rest.drop 32).take 32
  let ovmEntrypoint := ((rest.drop 64).take 32).drop 12
  let ovmCalldata := rest.drop 96
  (ovmEntrypoint, timestamp, queueOrigin, ovmCalldata)

/-- Errors surfaced by `sendRawTransaction`, named after the spec's
taxonomy (the source throws at the corresponding sites). -/
inductive BridgeError
  | mappingPersist
  | underlyingLedger
  | hashMismatch
deriving DecidableEq, Repr

/-- External collaborators of `sendRawTransaction`: the keccak256 hash
(ethers `utils.keccak256`), the OVM-to-internal transaction conversion
`ovmTxToInternalTx` (parsing, nonce lookup and wallet signing, all via
external libraries), whether the execution manager's hash-mapping write
succeeds, and the underlying ledger's response to a submission (`none`
models a throwing `provider.send`). -/
structure BridgeEnv where
  keccak : String → String
  toInternalTx : String → String
  mapWriteSucceeds : Bool
  ledgerResponse : String → Option String

/-- The externally persisted world the bridge writes to: the
(ovmTxHash, internalTxHash) mapping entries written via the execution
manager contract, and the raw internal transactions accepted by the
underlying ledger.  Writes survive a later `throw`. -/
structure BridgeState where
  mapping : List (String × String)
  submitted : List String
deriving DecidableEq, Repr

/-- `DefaultWeb3Handler.sendRawTransaction` (handler.ts lines 265-291):
build the internal transaction, hash both forms, write the hash mapping
(aborting on failure), submit, compare the returned hash against the
locally computed one with `remove0x` on both sides, and on success return
the OVM transaction hash. -/
def sendRawTransaction (env : BridgeEnv) (st : BridgeState) (rawOvmTx : String) :
    Except BridgeError String × BridgeState :=
  let internalTx := env.toInternalTx rawOvmTx
  let ovmTxHash := env.keccak rawOvmTx
  let internalTxHash := env.keccak internalTx
  if env.mapWriteSucceeds = false then
    (.error .mappingPersist, st)
  else
    let st₁ : BridgeState := ⟨st.mapping ++ [(ovmTxHash, internalTxHash)], st.submitted⟩
    match env.ledgerResponse internalTx with
    | none => (.error .underlyingLedger, st₁)
    | some returnedInternalTxHash =>
      let st₂ : BridgeState := ⟨st₁.mapping, st₁.submitted ++ [internalTx]⟩
      if remove0x internalTxHash ≠ remove0x returnedInternalTxHash then
        (.error .hashMismatch, st₂)
      else
        (.ok ovmTxHash, st₂)

/-! ### RPC dispatch (handler.ts `handleRequest` / `assertParameters`) -/

/-- A JS value passed as an RPC parameter: a string, `undefined`, or some
other opaque object. -/
inductive Param
  | str (s : String)
  | undef
  | obj (n : Nat)
deriving DecidableEq, Repr

/-- `const latestBlock: string = 'latest'` (handler.ts line 25). -/
def latestBlock : Param := .str "latest"

/-- Errors thrown by `handleRequest` dispatch. -/
inductive HandlerError
  | invalidParameters
  | unsupportedMethod
deriving DecidableEq, Repr

/-- Modelled from the spec: the `Web3RpcMethods` constants live in
`rollup-full-node/src/types`, which is not under `src/`; spec section 6
lists the JSON-RPC method names. -/
def Web3RpcMethods.blockNumber : String := "eth_blockNumber"

/-- Modelled from the spec (section 6). -/
def Web3RpcMethods.call : String := "eth_call"

/-- Modelled from the spec (section 6). -/
def Web3RpcMethods.estimateGas : String := "eth_estimateGas"

/-- Modelled from the spec (section 6). -/
def Web3RpcMethods.gasPrice : String := "eth_gasPrice"

/-- Modelled from the spec (section 6). -/
def Web3RpcMethods.getCode : String := "eth_getCode"

/-- Modelled from the spec (section 6). -/
def Web3RpcMethods.getExecutionManagerAddress : String := "getExecutionManagerAddress"

/-- Modelled from the spec (section 6). -/
def Web3RpcMethods.getTransactionCount : String := "eth_getTransactionCount"

/-- Modelled from the spec (section 6). -/
def Web3RpcMethods.getTransactionReceipt : String := "eth_getTransactionReceipt"

/-- Modelled from the spec (section 6). -/
def Web3RpcMethods.sendRawTransaction : String := "eth_sendRawTransaction"

/-- Modelled from the spec (section 6). -/
def Web3RpcMethods.networkVersion : String := "net_version"

/-- `DefaultWeb3Handler.assertParameters` (handler.ts lines 414-431).
`params` is `none` when the caller passed a falsy value (`null` or
`undefined`; a JS empty array is truthy and is `some []`).  A missing
`defaultLast` argument at a call site is JS `undefined`, written
`Param.undef` here.  The JS branch accepts `params.length === expected - 1`
with JS subtraction, so `expected = 0` never matches it (length is never
`-1`); the Lean condition `l.length + 1 = expected` matches exactly. -/
def assertParameters (params : Option (List Param)) (expected : Nat) (defaultLast : Param) :
    Except HandlerError (List Param) :=
  match params with
  | none => if expected = 0 then .ok [] else .error .invalidParameters
  | some l =>
    if l.length + 1 = expected then .ok (l ++ [defaultLast])
    else if l.length = expected then .ok l
    else .error .invalidParameters

/-- The dispatch of `DefaultWeb3Handler.handleRequest` (handler.ts lines
62-119).  The method bodies delegate to the external provider; the
observable modelled here is which method executes and with which
(arity-checked, default-padded) arguments, or which dispatch error is
thrown.  The cases with no arguments call `assertParameters(params, 0)`
and then invoke the method with no arguments. -/
def handleRequest (method : String) (params : Option (List Param)) :
    Except HandlerError (String × List Param) :=
  if method = Web3RpcMethods.blockNumber then
    (assertParameters params 0 Param.undef).map fun _ => (method, [])
  else if method = Web3RpcMethods.call then
    (assertParameters params 2 latestBlock).map fun args => (method, args)
  else if method = Web3RpcMethods.estimateGas then
    (assertParameters params 2 latestBlock).map fun args => (method, args)
  else if method = Web3RpcMethods.gasPrice then
    (assertParameters params 0 Param.undef).map fun _ => (method, [])
  else if method = Web3RpcMethods.getCode then
    (assertParameters params 2 latestBlock).map fun args => (method, args)
  else if method = Web3RpcMethods.getExecutionManagerAddress then
    (assertParameters params 0 Param.undef).map fun _ => (method, [])
  else if method = Web3RpcMethods.getTransactionCount then
    (assertParameters params 2 latestBlock).map fun args => (method, args)
  else if method = Web3RpcMethods.getTransactionReceipt then
    (assertParameters params 1 Param.undef).map fun args => (method, args)
  else if method = Web3RpcMethods.sendRawTransaction then
    (assertParameters params 1 Param.undef).map fun args => (method, args)
  else if method = Web3RpcMethods.networkVersion then
    (assertParameters params 0 Param.undef).map fun _ => (method, [])
  else
    .error .unsupportedMethod

/-- The arity and default final argument of each supported method, read
off the `assertParameters` call in the corresponding `handleRequest`
branch; `none` for an unsupported method. -/
def methodArity (method : String) : Option (Nat × Param) :=
  if method = Web3RpcMethods.blockNumber then some (0, Param.undef)
  else if method = Web3RpcMethods.call then some (2, latestBlock)
  else if method = Web3RpcMethods.estimateGas then some (2, latestBlock)
  else if method = Web3RpcMethods.gasPrice then some (0, Param.undef)
  else if method = Web3RpcMethods.getCode then some (2, latestBlock)
  else if method = Web3RpcMethods.getExecutionManagerAddress then some (0, Param.undef)
  else if method = Web3RpcMethods.getTransactionCount then some (2, latestBlock)
  else if method = Web3RpcMethods.getTransactionReceipt then some (1, Param.undef)
  else if method = Web3RpcMethods.sendRawTransaction then some (1, Param.undef)
  else if method = Web3RpcMethods.networkVersion then some (0, Param.undef)
  else none

/-- The parameter counts `assertParameters` accepts for a given expected
arity: exactly `expected`, or exactly one less (the final argument is
then filled with the default), with a falsy `params` accepted only at
arity zero. -/
def paramCountOk (params : Option (List Param)) (expected : Nat) : Prop :=
  match params with
  | none => expected = 0
  | some l => l.length = expected ∨ l.length + 1 = expected

instance (params : Option (List Param)) (expected : Nat) :
    Decidable (paramCountOk params expected) := by
  unfold paramCountOk
  cases params <;> infer_instance

/-! ### Engine lemmas -/

/-- The reference returned by the predicate dispatch of state-manager.ts
lines 76-84: `pluginManager.getPlugin(stateObject.predicate)` followed by
`executeStateTransition(stateUpdate, verifiedBlockNumber, transaction)`. -/
def candidateRef (plugins : PluginManager) (tx : Transaction) (v : VerifiedStateUpdate) : Ref :=
  (plugins v.stateUpdate.stateObject.predicate).executeStateTransition
    v.stateUpdate v.verifiedBlockNumber tx

/-- Negation of the eager-exit condition of state-manager.ts line 69:
`verifiedEnd.lte(start) || verifiedStart.gte(end)`. -/
def overlapsTx (tx : Transaction) (v : VerifiedStateUpdate) : Prop :=
  ¬ (v.stateUpdate.range.end_ ≤ tx.range.start ∨ tx.range.end_ ≤ v.stateUpdate.range.start)

instance (tx : Transaction) (v : VerifiedStateUpdate) : Decidable (overlapsTx tx v) := by
  unfold overlapsTx
  infer_instance

theorem processUpdate_rangeMismatch_iff (deref : Heap) (plugins : PluginManager)
    (tx : Transaction) (acc : ExecResult) (v : VerifiedStateUpdate) :
    processUpdate deref plugins tx acc v = .error .rangeMismatch ↔
      isValidVerifiedStateUpdate v = true ∧ ¬ overlapsTx tx v := by
  unfold processUpdate overlapsTx
  by_cases h1 : isValidVerifiedStateUpdate v
  · by_cases h2 : v.stateUpdate.range.end_ ≤ tx.range.start ∨ tx.range.end_ ≤ v.stateUpdate.range.start
    · simp [h1, h2]
    · by_cases h3 : (deref ((plugins v.stateUpdate.stateObject.predicate).executeStateTransition
          v.stateUpdate v.verifiedBlockNumber tx)).plasmaBlockNumber = v.verifiedBlockNumber + 1
      · cases hacc : acc.stateUpdate with
        | none => simp [h1, h2, h3, hacc]
        | some r =>
          by_cases h4 : r = (plugins v.stateUpdate.stateObject.predicate).executeStateTransition
              v.stateUpdate v.verifiedBlockNumber tx
          · simp [h1, h2, h3, hacc, h4]
          · simp [h1, h2, h3, hacc, h4]
      · simp [h1, h2, h3]
  · simp [h1]

theorem processUpdate_blockNumberMismatch_iff (deref : Heap) (plugins : PluginManager)
    (tx : Transaction) (acc : ExecResult) (v : VerifiedStateUpdate) :
    processUpdate deref plugins tx acc v = .error .blockNumberMismatch ↔
      isValidVerifiedStateUpdate v = true ∧ overlapsTx tx v ∧
        (deref (candidateRef plugins tx v)).plasmaBlockNumber ≠ v.verifiedBlockNumber + 1 := by
  unfold processUpdate overlapsTx candidateRef
  by_cases h1 : isValidVerifiedStateUpdate v
  · by_cases h2 : v.stateUpdate.range.end_ ≤ tx.range.start ∨ tx.range.end_ ≤ v.stateUpdate.range.start
    · simp [h1, h2]
    · by_cases h3 : (deref ((plugins v.stateUpdate.stateObject.predicate).executeStateTransition
          v.stateUpdate v.verifiedBlockNumber tx)).plasmaBlockNumber = v.verifiedBlockNumber + 1
      · cases hacc : acc.stateUpdate with
        | none => simp [h1, h2, h3, hacc]
        | some r =>
          by_cases h4 : r = (plugins v.stateUpdate.stateObject.predicate).executeStateTransition
              v.stateUpdate v.verifiedBlockNumber tx
          · simp [h1, h2, h3, hacc, h4]
          · simp [h1, h2, h3, hacc, h4]
      · simp [h1, h2, h3]
  · simp [h1]

theorem processUpdate_inconsistent_iff (deref : Heap) (plugins : PluginManager)
    (tx : Transaction) (acc : ExecResult) (v : VerifiedStateUpdate) :
    processUpdate deref plugins tx acc v = .error .inconsistentTransition ↔
      isValidVerifiedStateUpdate v = true ∧ overlapsTx tx v ∧
        (deref (candidateRef plugins tx v)).plasmaBlockNumber = v.verifiedBlockNumber + 1 ∧
        ∃ r, acc.stateUpdate = some r ∧ r ≠ candidateRef plugins tx v := by
  unfold processUpdate overlapsTx candidateRef
  by_cases h1 : isValidVerifiedStateUpdate v
  · by_cases h2 : v.stateUpdate.range.end_ ≤ tx.range.start ∨ tx.range.end_ ≤ v.stateUpdate.range.start
    · simp [h1, h2]
    · by_cases h3 : (deref ((plugins v.stateUpdate.stateObject.predicate).executeStateTransition
          v.stateUpdate v.verifiedBlockNumber tx)).plasmaBlockNumber = v.verifiedBlockNumber + 1
      · cases hacc : acc.stateUpdate with
        | none => simp [h1, h2, h3, hacc]
        | some r =>
          by_cases h4 : r = (plugins v.stateUpdate.stateObject.predicate).executeStateTransition
              v.stateUpdate v.verifiedBlockNumber tx
          · simp [h1, h2, h3, hacc, h4]
          · simp [h1, h2, h3, hacc, h4]
      · simp [h1, h2, h3]
  · simp [h1]

theorem processUpdate_ok_of (deref : Heap) (plugins : PluginManager)
    (tx : Transaction) (acc : ExecResult) (v : VerifiedStateUpdate)
    (h1 : isValidVerifiedStateUpdate v = true) (h2 : overlapsTx tx v)
    (h3 : (deref (candidateRef plugins tx v)).plasmaBlockNumber = v.verifiedBlockNumber + 1)
    (h4 : acc.stateUpdate = none ∨ acc.stateUpdate = some (candidateRef plugins tx v)) :
    processUpdate deref plugins tx acc v =
      .ok ⟨some (candidateRef plugins tx v), acc.validRanges ++ [clipRange tx v]⟩ := by
  unfold overlapsTx at h2
  unfold candidateRef at h3 h4 ⊢
  unfold processUpdate
  rcases h4 with h4 | h4 <;> simp [h1, h2, h3, h4]

theorem processUpdate_ok_inv (deref : Heap) (plugins : PluginManager)
    (tx : Transaction) (acc acc' : ExecResult) (v : VerifiedStateUpdate)
    (h : processUpdate deref plugins tx acc v = .ok acc') :
    isValidVerifiedStateUpdate v = true ∧ overlapsTx tx v ∧
      (deref (candidateRef plugins tx v)).plasmaBlockNumber = v.verifiedBlockNumber + 1 ∧
      acc' = ⟨some (candidateRef plugins tx v), acc.validRanges ++ [clipRange tx v]⟩ ∧
      (∀ r, acc.stateUpdate = some r → r = candidateRef plugins tx v) := by
  by_cases h1 : isValidVerifiedStateUpdate v
  · by_cases h2 : v.stateUpdate.range.end_ ≤ tx.range.start ∨ tx.range.end_ ≤ v.stateUpdate.range.start
    · unfold processUpdate at h
      simp [h1, h2] at h
    · by_cases h3 : (deref ((plugins v.stateUpdate.stateObject.predicate).executeStateTransition
          v.stateUpdate v.verifiedBlockNumber tx)).plasmaBlockNumber = v.verifiedBlockNumber + 1
      · cases hacc : acc.stateUpdate with
        | none =>
          have hrun := processUpdate_ok_of deref plugins tx acc v h1 h2 h3 (Or.inl hacc)
          rw [h] at hrun
          refine ⟨h1, h2, h3, Except.ok.inj hrun, ?_⟩
          intro r hr
          simp [hacc] at hr
        | some r =>
          by_cases h4 : r = (plugins v.stateUpdate.stateObject.predicate).executeStateTransition
              v.stateUpdate v.verifiedBlockNumber tx
          · have hacc' : acc.stateUpdate = some (candidateRef plugins tx v) := by
              rw [hacc, h4]
              rfl
            have hrun := processUpdate_ok_of deref plugins tx acc v h1 h2 h3 (Or.inr hacc')
            rw [h] at hrun
            refine ⟨h1, h2, h3, Except.ok.inj hrun, ?_⟩
            intro r' hr'
            have hr'' : r' = r := (Option.some.inj hr').symm
            rw [hr'']
            exact h4
          · unfold processUpdate at h
            simp [h1, h2, h3, hacc, h4] at h
      · unfold processUpdate at h
        simp [h1, h2, h3] at h
  · unfold processUpdate at h
    simp [h1] at h

theorem processAll_error_iff (deref : Heap) (plugins : PluginManager) (tx : Transaction)
    (acc : ExecResult) (l : List VerifiedStateUpdate) (e : EngineError) :
    processAll deref plugins tx acc l = .error e ↔
      ∃ pre v post acc', l = pre ++ v :: post ∧
        processAll deref plugins tx acc pre = .ok acc' ∧
        processUpdate deref plugins tx acc' v = .error e := by
  induction l generalizing acc with
  | nil =>
    constructor
    · intro h
      simp [processAll] at h
    · rintro ⟨pre, v, post, acc', hl, -, -⟩
      exact absurd hl (by simp)
  | cons w rest ih =>
    constructor
    · intro h
      simp only [processAll] at h
      cases hw : processUpdate deref plugins tx acc w with
      | error e' =>
        rw [hw] at h
        simp at h
        rw [← h]
        exact ⟨[], w, rest, acc, rfl, by simp [processAll], hw⟩
      | ok acc₁ =>
        rw [hw] at h
        simp at h
        obtain ⟨pre, v, post, acc', hl, hpre, hv⟩ := (ih acc₁).mp h
        refine ⟨w :: pre, v, post, acc', by simp [hl], ?_, hv⟩
        simp only [processAll]
        rw [hw]
        exact hpre
    · rintro ⟨pre, v, post, acc', hl, hpre, hv⟩
      cases pre with
      | nil =>
        simp at hl
        obtain ⟨hw, hrest⟩ := hl
        simp [processAll] at hpre
        subst hw hrest hpre
        simp only [processAll]
        rw [hv]
      | cons p ps =>
        rw [List.cons_append] at hl
        injection hl with hw hrest
        rw [hw, hrest]
        simp only [processAll] at hpre ⊢
        cases hp : processUpdate deref plugins tx acc p with
        | error e' =>
          rw [hp] at hpre
          simp at hpre
        | ok acc₁ =>
          rw [hp] at hpre
          simp at hpre
          have hres := (ih acc₁).mpr ⟨ps, v, post, acc', hrest, hpre, hv⟩
          rw [hrest] at hres
          exact hres

theorem processAll_ok_validRanges (deref : Heap) (plugins : PluginManager) (tx : Transaction)
    (acc : ExecResult) (l : List VerifiedStateUpdate) (res : ExecResult)
    (h : processAll deref plugins tx acc l = .ok res) :
    res.validRanges = acc.validRanges ++ l.map (clipRange tx) := by
  induction l generalizing acc with
  | nil =>
    simp [processAll] at h
    simp [← h]
  | cons w rest ih =>
    simp only [processAll] at h
    cases hw : processUpdate deref plugins tx acc w with
    | error e' =>
      rw [hw] at h
      simp at h
    | ok acc₁ =>
      rw [hw] at h
      simp at h
      have hinv := processUpdate_ok_inv deref plugins tx acc acc₁ w hw
      have hvr : acc₁.validRanges = acc.validRanges ++ [clipRange tx w] := by
        rw [hinv.2.2.2.1]
      rw [ih acc₁ h, hvr]
      simp

theorem processAll_ok_mem (deref : Heap) (plugins : PluginManager) (tx : Transaction)
    (acc : ExecResult) (l : List VerifiedStateUpdate) (res : ExecResult)
    (h : processAll deref plugins tx acc l = .ok res) :
    ∀ v ∈ l, isValidVerifiedStateUpdate v = true ∧ overlapsTx tx v ∧
      (deref (candidateRef plugins tx v)).plasmaBlockNumber = v.verifiedBlockNumber + 1 := by
  induction l generalizing acc with
  | nil => intro v hv; cases hv
  | cons w rest ih =>
    simp only [processAll] at h
    cases hw : processUpdate deref plugins tx acc w with
    | error e' =>
      rw [hw] at h
      simp at h
    | ok acc₁ =>
      rw [hw] at h
      simp at h
      intro v hv
      rcases List.mem_cons.mp hv with hv | hv
      · subst hv
        have hinv := processUpdate_ok_inv deref plugins tx acc acc₁ v hw
        exact ⟨hinv.1, hinv.2.1, hinv.2.2.1⟩
      · exact ih acc₁ h v hv

theorem processAll_ok_stateUpdate_mono (deref : Heap) (plugins : PluginManager) (tx : Transaction)
    (acc : ExecResult) (l : List VerifiedStateUpdate) (res : ExecResult) (c : Ref)
    (h : processAll deref plugins tx acc l = .ok res) (hc : acc.stateUpdate = some c) :
    res.stateUpdate = some c := by
  induction l generalizing acc with
  | nil =>
    simp [processAll] at h
    rw [← h]
    exact hc
  | cons w rest ih =>
    simp only [processAll] at h
    cases hw : processUpdate deref plugins tx acc w with
    | error e' =>
      rw [hw] at h
      simp at h
    | ok acc₁ =>
      rw [hw] at h
      simp at h
      have hinv := processUpdate_ok_inv deref plugins tx acc acc₁ w hw
      have hcand : candidateRef plugins tx w = c := (hinv.2.2.2.2 c hc).symm
      have hacc₁ : acc₁.stateUpdate = some c := by
        rw [hinv.2.2.2.1]
        simp [hcand]
      exact ih acc₁ h hacc₁

theorem processAll_ok_candidates (deref : Heap) (plugins : PluginManager) (tx : Transaction)
    (acc : ExecResult) (l : List VerifiedStateUpdate) (res : ExecResult)
    (h : processAll deref plugins tx acc l = .ok res) :
    ∀ v ∈ l, res.stateUpdate = some (candidateRef plugins tx v) := by
  induction l generalizing acc with
  | nil => intro v hv; cases hv
  | cons w rest ih =>
    simp only [processAll] at h
    cases hw : processUpdate deref plugins tx acc w with
    | error e' =>
      rw [hw] at h
      simp at h
    | ok acc₁ =>
      rw [hw] at h
      simp at h
      intro v hv
      have hinv := processUpdate_ok_inv deref plugins tx acc acc₁ w hw
      have hacc₁ : acc₁.stateUpdate = some (candidateRef plugins tx w) := by
        rw [hinv.2.2.2.1]
      rcases List.mem_cons.mp hv with hv | hv
      · subst hv
        exact processAll_ok_stateUpdate_mono deref plugins tx acc₁ rest res _ h hacc₁
      · exact ih acc₁ h v hv

/-! ### Engine claim theorems -/

/-- C9: for every well-formed transaction for which the state store
returns an empty sequence of verified updates, `executeTransaction`
returns successfully with `stateUpdate = undefined` (modelled `none`) and
`validRanges = []`. -/
theorem C9_empty_store_ok (deref : Heap) (plugins : PluginManager) (stateDB : StateDB)
    (tx : Transaction) (hvalid : isValidTransaction tx = true)
    (hempty : stateDB tx.range.start tx.range.end_ = []) :
    executeTransaction deref plugins stateDB tx = .ok ⟨none, []⟩ := by
  unfold executeTransaction
  simp [hvalid, hempty, processAll]

/-- C5: a verified update returned by the store whose range does not
overlap the transaction's range makes (1) its own processing step fail
with `RangeMismatch` for every heap and every plugin registry — so the
predicate's behaviour is irrelevant, the check preceding its invocation;
(2) the whole `executeTransaction` call fail (the update is never
silently omitted from a successful result); (3) `executeTransaction`
fail with `RangeMismatch` itself when the non-overlapping update is
reached after all earlier updates processed cleanly. -/
theorem C5_nonoverlap_rangeMismatch (deref : Heap) (plugins : PluginManager)
    (stateDB : StateDB) (tx : Transaction) (v : VerifiedStateUpdate)
    (hno : ¬ overlapsTx tx v) :
    (∀ acc, isValidVerifiedStateUpdate v = true →
        processUpdate deref plugins tx acc v = .error .rangeMismatch) ∧
    (v ∈ stateDB tx.range.start tx.range.end_ →
        ∀ res, executeTransaction deref plugins stateDB tx ≠ .ok res) ∧
    (∀ pre post acc, isValidTransaction tx = true →
        stateDB tx.range.start tx.range.end_ = pre ++ v :: post →
        isValidVerifiedStateUpdate v = true →
        processAll deref plugins tx ⟨none, []⟩ pre = .ok acc →
        executeTransaction deref plugins stateDB tx = .error .rangeMismatch) := by
  refine ⟨?_, ?_, ?_⟩
  · intro acc hv
    exact (processUpdate_rangeMismatch_iff deref plugins tx acc v).mpr ⟨hv, hno⟩
  · intro hmem res hok
    unfold executeTransaction at hok
    by_cases hval : isValidTransaction tx
    · simp [hval] at hok
      exact hno (processAll_ok_mem deref plugins tx ⟨none, []⟩ _ res hok v hmem).2.1
    · simp [hval] at hok
  · intro pre post acc hval hsplit hv hpre
    unfold executeTransaction
    rw [if_neg (by simp [hval] : ¬ ¬ isValidTransaction tx = true)]
    rw [hsplit]
    exact (processAll_error_iff deref plugins tx ⟨none, []⟩ _ _).mpr
      ⟨pre, v, post, acc, rfl, hpre,
        (processUpdate_rangeMismatch_iff deref plugins tx acc v).mpr ⟨hv, hno⟩⟩

/-- C4: `executeTransaction` fails with `BlockNumberMismatch` exactly
when some verified update is reached (all earlier updates processed
cleanly), passes the well-formedness and overlap checks, and its
predicate's candidate has a block number different from
`verifiedBlockNumber + 1`; in particular a candidate with exactly
`verifiedBlockNumber + 1` never triggers this error. -/
theorem C4_blockNumberMismatch_iff (deref : Heap) (plugins : PluginManager)
    (stateDB : StateDB) (tx : Transaction) :
    executeTransaction deref plugins stateDB tx = .error .blockNumberMismatch ↔
      isValidTransaction tx = true ∧
        ∃ pre v post acc, stateDB tx.range.start tx.range.end_ = pre ++ v :: post ∧
          processAll deref plugins tx ⟨none, []⟩ pre = .ok acc ∧
          isValidVerifiedStateUpdate v = true ∧ overlapsTx tx v ∧
          (deref (candidateRef plugins tx v)).plasmaBlockNumber ≠ v.verifiedBlockNumber + 1 := by
  unfold executeTransaction
  by_cases hval : isValidTransaction tx
  · rw [if_neg (by simp [hval] : ¬ ¬ isValidTransaction tx = true)]
    simp only [hval, eq_self_iff_true, true_and]
    rw [processAll_error_iff]
    constructor
    · rintro ⟨pre, v, post, acc, hsplit, hpre, hv⟩
      have hc := (processUpdate_blockNumberMismatch_iff deref plugins tx acc v).mp hv
      exact ⟨pre, v, post, acc, hsplit, hpre, hc.1, hc.2.1, hc.2.2⟩
    · rintro ⟨pre, v, post, acc, hsplit, hpre, h1, h2, h3⟩
      exact ⟨pre, v, post, acc, hsplit, hpre,
        (processUpdate_blockNumberMismatch_iff deref plugins tx acc v).mpr ⟨h1, h2, h3⟩⟩
  · simp [hval]

/-- C3: whenever `executeTransaction` succeeds, the returned
`validRanges` are exactly, in order, `[max(tx.start, u.start),
min(tx.end, u.end))` for each contributing verified update `u`; they are
pairwise disjoint provided the store's updates have pairwise disjoint
ranges (the store is a range-partitioned ledger); and each is non-empty
and contained in the transaction's range. -/
theorem C3_validRanges (deref : Heap) (plugins : PluginManager) (stateDB : StateDB)
    (tx : Transaction) (res : ExecResult)
    (hok : executeTransaction deref plugins stateDB tx = .ok res) :
    res.validRanges = (stateDB tx.range.start tx.range.end_).map (clipRange tx) ∧
    (List.Pairwise (fun u v => rangesDisjoint u.stateUpdate.range v.stateUpdate.range)
        (stateDB tx.range.start tx.range.end_) →
      List.Pairwise rangesDisjoint res.validRanges) ∧
    (∀ r ∈ res.validRanges, r.start < r.end_ ∧
      tx.range.start ≤ r.start ∧ r.end_ ≤ tx.range.end_) := by
  unfold executeTransaction at hok
  by_cases hval : isValidTransaction tx
  · simp [hval] at hok
    have hmap : res.validRanges = (stateDB tx.range.start tx.range.end_).map (clipRange tx) := by
      have := processAll_ok_validRanges deref plugins tx ⟨none, []⟩ _ res hok
      simpa using this
    refine ⟨hmap, ?_, ?_⟩
    · intro hpw
      rw [hmap, List.pairwise_map]
      refine hpw.imp ?_
      intro a b hab
      simp only [rangesDisjoint, clipRange] at hab ⊢
      omega
    · intro r hr
      rw [hmap] at hr
      obtain ⟨v, hv, hclip⟩ := List.mem_map.mp hr
      have hm := processAll_ok_mem deref plugins tx ⟨none, []⟩ _ res hok v hv
      have hval' : tx.range.start < tx.range.end_ := by
        simpa [isValidTransaction] using hval
      have hvv : v.stateUpdate.range.start < v.stateUpdate.range.end_ := by
        simpa [isValidVerifiedStateUpdate] using hm.1
      have hov := hm.2.1
      unfold overlapsTx at hov
      rw [← hclip]
      simp only [clipRange]
      omega
  · simp [hval] at hok

/-- C1 counterexample environment: a constant heap, so every reference
holds the same `StateUpdate` value; the plugin returns the update's range
start as the (distinct) object reference. -/
def cDeref : Heap := fun _ => ⟨⟨0, 10⟩, ⟨0, 0⟩, 1⟩

/-- C1 counterexample plugin registry. -/
def cPlugins : PluginManager := fun _ => ⟨fun su _ _ => su.range.start⟩

/-- C1 counterexample transaction over `[0, 10)`. -/
def cTx : Transaction := ⟨⟨0, 10⟩, 0⟩

/-- C1 counterexample verified update over `[0, 5)` at verified block 0. -/
def cU1 : VerifiedStateUpdate := ⟨⟨⟨0, 5⟩, ⟨0, 0⟩, 1⟩, 0⟩

/-- C1 counterexample verified update over `[5, 10)` at verified block 0. -/
def cU2 : VerifiedStateUpdate := ⟨⟨⟨5, 10⟩, ⟨0, 0⟩, 1⟩, 0⟩

/-- C1 counterexample store returning the two overlapping-with-tx updates. -/
def cStateDB : StateDB := fun _ _ => [cU1, cU2]

/-- C1 counterexample: both candidates dereference to the same
`StateUpdate` value (`cDeref` is constant, so `cDeref 0 = cDeref 5`), yet
`executeTransaction` fails with `InconsistentTransition`, because
state-manager.ts line 104 compares the candidate objects with strict
`!==`, i.e. by reference, and the plugin returned distinct objects
(references 0 and 5). -/
theorem C1_counterexample :
    cDeref 0 = cDeref 5 ∧
    executeTransaction cDeref cPlugins cStateDB cTx = .error .inconsistentTransition := by
  constructor
  · rfl
  · rfl

/-- C1 (amended): the single-result check compares object references, not
values.  (1) `executeTransaction` fails with `InconsistentTransition`
exactly when some update is reached whose candidate passes the
well-formedness, overlap and block-number checks but is a different
object (reference) than the previously accumulated candidate — in
particular whenever the values differ, but also when equal-valued
distinct objects are produced; (2) on success all candidates across the
store's updates are the very same object reference (hence value
identical). -/
theorem C1_reference_identity (deref : Heap) (plugins : PluginManager)
    (stateDB : StateDB) (tx : Transaction) :
    (executeTransaction deref plugins stateDB tx = .error .inconsistentTransition ↔
      isValidTransaction tx = true ∧
        ∃ pre v post acc r, stateDB tx.range.start tx.range.end_ = pre ++ v :: post ∧
          processAll deref plugins tx ⟨none, []⟩ pre = .ok acc ∧
          acc.stateUpdate = some r ∧
          isValidVerifiedStateUpdate v = true ∧ overlapsTx tx v ∧
          (deref (candidateRef plugins tx v)).plasmaBlockNumber = v.verifiedBlockNumber + 1 ∧
          r ≠ candidateRef plugins tx v) ∧
    (∀ res, executeTransaction deref plugins stateDB tx = .ok res →
      ∀ v₁ ∈ stateDB tx.range.start tx.range.end_,
        ∀ v₂ ∈ stateDB tx.range.start tx.range.end_,
          candidateRef plugins tx v₁ = candidateRef plugins tx v₂ ∧
          deref (candidateRef plugins tx v₁) = deref (candidateRef plugins tx v₂)) := by
  constructor
  · unfold executeTransaction
    by_cases hval : isValidTransaction tx
    · rw [if_neg (by simp [hval] : ¬ ¬ isValidTransaction tx = true)]
      simp only [hval, eq_self_iff_true, true_and]
      rw [processAll_error_iff]
      constructor
      · rintro ⟨pre, v, post, acc, hsplit, hpre, hv⟩
        have hc := (processUpdate_inconsistent_iff deref plugins tx acc v).mp hv
        obtain ⟨r, hr, hne⟩ := hc.2.2.2
        exact ⟨pre, v, post, acc, r, hsplit, hpre, hr, hc.1, hc.2.1, hc.2.2.1, hne⟩
      · rintro ⟨pre, v, post, acc, r, hsplit, hpre, hr, h1, h2, h3, h4⟩
        exact ⟨pre, v, post, acc, hsplit, hpre,
          (processUpdate_inconsistent_iff deref plugins tx acc v).mpr
            ⟨h1, h2, h3, r, hr, h4⟩⟩
    · simp [hval]
  · intro res hok v₁ h₁ v₂ h₂
    unfold executeTransaction at hok
    by_cases hval : isValidTransaction tx
    · simp [hval] at hok
      have hc₁ := processAll_ok_candidates deref plugins tx ⟨none, []⟩ _ res hok v₁ h₁
      have hc₂ := processAll_ok_candidates deref plugins tx ⟨none, []⟩ _ res hok v₂ h₂
      have heq : candidateRef plugins tx v₁ = candidateRef plugins tx v₂ :=
        Option.some.inj (hc₁.symm.trans hc₂)
      exact ⟨heq, by rw [heq]⟩
    · simp [hval] at hok

/-! ### Bridge claim theorems -/

/-- C7: when persisting the `(ovmTxHash → internalTxHash)` mapping fails,
`sendRawTransaction` fails and takes no further action: the external
world is left untouched — in particular the internal transaction is not
submitted to the underlying ledger and no mapping entry is written. -/
theorem C7_mapping_write_failure (env : BridgeEnv) (st : BridgeState) (raw : String)
    (hfail : env.mapWriteSucceeds = false) :
    (sendRawTransaction env st raw).1 = .error .mappingPersist ∧
    (sendRawTransaction env st raw).2 = st := by
  unfold sendRawTransaction
  simp [hfail]

/-- C2: with the mapping write succeeding and the ledger answering, if the
ledger's returned hash differs (after `remove0x`) from the locally
computed internal hash, `sendRawTransaction` fails with `HashMismatch`;
the only mapping entry this call wrote pairs the OVM hash with the
locally computed internal hash, which is not the returned hash — no
mapping references the mismatching returned hash, and no success is
reported for the pair.  If the hashes agree, the call returns the OVM
transaction hash `keccak256(rawOvmTx)`, never the underlying internal
hash. -/
theorem C2_hashMismatch (env : BridgeEnv) (st : BridgeState) (raw ret : String)
    (hmap : env.mapWriteSucceeds = true)
    (hresp : env.ledgerResponse (env.toInternalTx raw) = some ret) :
    (remove0x (env.keccak (env.toInternalTx raw)) ≠ remove0x ret →
      (sendRawTransaction env st raw).1 = .error .hashMismatch ∧
      (sendRawTransaction env st raw).2.mapping =
        st.mapping ++ [(env.keccak raw, env.keccak (env.toInternalTx raw))] ∧
      env.keccak (env.toInternalTx raw) ≠ ret) ∧
    (remove0x (env.keccak (env.toInternalTx raw)) = remove0x ret →
      (sendRawTransaction env st raw).1 = .ok (env.keccak raw)) := by
  constructor
  · intro hne
    unfold sendRawTransaction
    simp only [hmap]
    rw [hresp]
    simp [hne]
    intro heq
    exact hne (by rw [heq])
  · intro heq
    unfold sendRawTransaction
    simp only [hmap]
    rw [hresp]
    simp [heq]

/-- C10: the bridge's packed calldata has the literal shape
`selector ++ zero-timestamp ++ zero-queueOrigin ++ padded-entrypoint ++ calldata`
with both 32-byte fields all zero (the packing function takes no
timestamp or queue-origin input at all, as its type shows); the calldata
forwarded by `call`, by `estimateGas` and inside the internal transaction
built for `sendRawTransaction` is exactly this packing; and extracting
the timestamp and queue-origin fields from the packed bytes yields
32 zero bytes each. -/
theorem C10_zero_timestamp_queueOrigin (methodId e c : List Nat) :
    getExecutionMgrTxData methodId e c =
      methodId ++ List.replicate 32 0 ++ List.replicate 32 0 ++
        (List.replicate 12 0 ++ e) ++ c ∧
    callInternalCalldata methodId e c = getExecutionMgrTxData methodId e c ∧
    estimateGasInternalCalldata methodId e c = getExecutionMgrTxData methodId e c ∧
    (∀ to_, internalTxData methodId to_ c = getExecutionMgrTxData methodId
        (match to_ with
         | none => List.replicate 20 0
         | some a => a) c) ∧
    (methodId.length = 4 →
      ((getExecutionMgrTxData methodId e c).drop 4).take 32 = List.replicate 32 0 ∧
      (((getExecutionMgrTxData methodId e c).drop 4).drop 32).take 32 = List.replicate 32 0) := by
  refine ⟨rfl, rfl, rfl, fun to_ => rfl, ?_⟩
  intro hm
  unfold getExecutionMgrTxData
  simp only [List.append_assoc]
  rw [List.drop_left' hm]
  constructor
  · rw [List.take_left' (by simp)]
  · rw [List.drop_left' (by simp)]
    rw [List.take_left' (by simp)]

/-- C6: the bridge's packed calldata is exactly the four-field wire
layout specialized to the all-zero timestamp and queue-origin fields, and
the wire codec round-trips: decoding an encoding of any 4-byte selector,
32-byte timestamp, 32-byte queue origin, 20-byte entrypoint and calldata
reproduces the four fields byte-for-byte. -/
theorem C6_calldata_roundtrip (methodId t q e c : List Nat)
    (hm : methodId.length = 4) (ht : t.length = 32) (hq : q.length = 32)
    (he : e.length = 20) :
    decodeExecutionMgrCalldata (encodeExecutionMgrCalldata methodId t q e c) = (e, t, q, c) ∧
    getExecutionMgrTxData methodId e c =
      encodeExecutionMgrCalldata methodId (List.replicate 32 0) (List.replicate 32 0) e c := by
  constructor
  · unfold decodeExecutionMgrCalldata encodeExecutionMgrCalldata
    simp only [List.append_assoc]
    rw [List.drop_left' hm]
    have h96 : ∀ l : List Nat, l.drop 96 = ((l.drop 32).drop 32).drop 32 := by
      intro l
      rw [List.drop_drop, List.drop_drop]
    have hd32 : (t ++ (q ++ (List.replicate 12 0 ++ (e ++ c)))).drop 32 =
        q ++ (List.replicate 12 0 ++ (e ++ c)) := List.drop_left' ht
    have hd64 : ((t ++ (q ++ (List.replicate 12 0 ++ (e ++ c)))).drop 32).drop 32 =
        List.replicate 12 0 ++ (e ++ c) := by
      rw [hd32]
      exact List.drop_left' hq
    have hpad : List.replicate 12 0 ++ (e ++ c) =
        (List.replicate 12 0 ++ e) ++ c := by
      rw [List.append_assoc]
    refine Prod.ext ?_ (Prod.ext ?_ (Prod.ext ?_ ?_)) <;> simp only []
    · rw [show (64 : Nat) = 32 + 32 from rfl, ← List.drop_drop, hd64, hpad]
      rw [List.take_left' (by simp only [List.length_append, List.length_replicate, he])]
      exact List.drop_left' (by simp)
    · exact List.take_left' ht
    · rw [hd32]
      exact List.take_left' hq
    · rw [h96, hd64, hpad]
      exact List.drop_left' (by simp only [List.length_append, List.length_replicate, he])
  · rfl

/-! ### Dispatch lemmas and claim theorems -/

theorem exceptMap_error_iff {α β : Type} (x : Except HandlerError α) (f : α → β)
    (e : HandlerError) : x.map f = .error e ↔ x = .error e := by
  cases x <;> simp [Except.map]

theorem assertParameters_error_iff (params : Option (List Param)) (expected : Nat)
    (d : Param) :
    assertParameters params expected d = .error .invalidParameters ↔
      ¬ paramCountOk params expected := by
  unfold assertParameters paramCountOk
  cases params with
  | none => by_cases h : expected = 0 <;> simp [h]
  | some l =>
    by_cases h1 : l.length + 1 = expected
    · simp [h1]
    · by_cases h2 : l.length = expected <;> simp [h1, h2]

theorem assertParameters_ok_of (params : Option (List Param)) (expected : Nat)
    (d : Param) (h : paramCountOk params expected) :
    ∃ args, assertParameters params expected d = .ok args := by
  unfold paramCountOk at h
  unfold assertParameters
  cases params with
  | none =>
    simp at h
    simp [h]
  | some l =>
    rcases h with h | h
    · by_cases h1 : l.length + 1 = expected
      · exact ⟨l ++ [d], by simp [h1]⟩
      · exact ⟨l, by simp [h1, h]⟩
    · exact ⟨l ++ [d], by simp [h]⟩

/-- C8 counterexample: `eth_call` has expected arity 2, yet a call with a
single parameter does not fail with `InvalidParametersError`: the
dispatcher pads the missing final parameter with the default `'latest'`
block tag and executes the method. -/
theorem C8_counterexample :
    handleRequest Web3RpcMethods.call (some [Param.obj 0]) =
      .ok (Web3RpcMethods.call, [Param.obj 0, latestBlock]) := by
  rfl

theorem branch_spec (params : Option (List Param)) (n₀ : Nat) (d₀ : Param)
    (method : String) (g : List Param → String × List Param)
    (hg : ∀ args, (g args).1 = method) :
    ((some (n₀, d₀) : Option (Nat × Param)) = none →
        (assertParameters params n₀ d₀).map g = .error .unsupportedMethod) ∧
    (∀ n d, (some (n₀, d₀) : Option (Nat × Param)) = some (n, d) →
      ((assertParameters params n₀ d₀).map g = .error .invalidParameters ↔
        ¬ paramCountOk params n) ∧
      (paramCountOk params n →
        ∃ args, (assertParameters params n₀ d₀).map g = .ok (method, args))) := by
  refine ⟨fun hnone => absurd hnone (by simp), fun n d hnd => ?_⟩
  rw [Option.some.injEq, Prod.mk.injEq] at hnd
  obtain ⟨hn, hd⟩ := hnd
  subst hn
  constructor
  · rw [exceptMap_error_iff, assertParameters_error_iff]
  · intro hok
    obtain ⟨args, hargs⟩ := assertParameters_ok_of params n₀ d₀ hok
    refine ⟨(g args).2, ?_⟩
    rw [hargs]
    show Except.ok (g args) = Except.ok (method, (g args).2)
    rw [show g args = (method, (g args).2) from Prod.ext (hg args) rfl]

/-- C8 (amended): `handleRequest` validates arity before executing: an
unsupported method fails with `UnsupportedMethodError`; a supported
method fails with `InvalidParametersError` — without executing — exactly
when the parameter count is neither the expected arity nor one less than
it (a falsy parameter list counting as zero, accepted only at arity 0);
when one less, the final parameter is filled with the method's default
(`'latest'` for the block-tag methods, `undefined` otherwise) and the
method executes. -/
theorem C8_arity_dispatch (method : String) (params : Option (List Param)) :
    (methodArity method = none →
      handleRequest method params = .error .unsupportedMethod) ∧
    (∀ n d, methodArity method = some (n, d) →
      (handleRequest method params = .error .invalidParameters ↔ ¬ paramCountOk params n) ∧
      (paramCountOk params n → ∃ args, handleRequest method params = .ok (method, args))) := by
  unfold handleRequest methodArity
  by_cases h1 : method = Web3RpcMethods.blockNumber
  · simp only [if_pos h1]
    exact branch_spec params 0 Param.undef method _ fun args => rfl
  simp only [if_neg h1]
  by_cases h2 : method = Web3RpcMethods.call
  · simp only [if_pos h2]
    exact branch_spec params 2 latestBlock method _ fun args => rfl
  simp only [if_neg h2]
  by_cases h3 : method = Web3RpcMethods.estimateGas
  · simp only [if_pos h3]
    exact branch_spec params 2 latestBlock method _ fun args => rfl
  simp only [if_neg h3]
  by_cases h4 : method = Web3RpcMethods.gasPrice
  · simp only [if_pos h4]
    exact branch_spec params 0 Param.undef method _ fun args => rfl
  simp only [if_neg h4]
  by_cases h5 : method = Web3RpcMethods.getCode
  · simp only [if_pos h5]
    exact branch_spec params 2 latestBlock method _ fun args => rfl
  simp only [if_neg h5]
  by_cases h6 : method = Web3RpcMethods.getExecutionManagerAddress
  · simp only [if_pos h6]
    exact branch_spec params 0 Param.undef method _ fun args => rfl
  simp only [if_neg h6]
  by_cases h7 : method = Web3RpcMethods.getTransactionCount
  · simp only [if_pos h7]
    exact branch_spec params 2 latestBlock method _ fun args => rfl
  simp only [if_neg h7]
  by_cases h8 : method = Web3RpcMethods.getTransactionReceipt
  · simp only [if_pos h8]
    exact branch_spec params 1 Param.undef method _ fun args => rfl
  simp only [if_neg h8]
  by_cases h9 : method = Web3RpcMethods.sendRawTransaction
  · simp only [if_pos h9]
    exact branch_spec params 1 Param.undef method _ fun args => rfl
  simp only [if_neg h9]
  by_cases h10 : method = Web3RpcMethods.networkVersion
  · simp only [if_pos h10]
    exact branch_spec params 0 Param.undef method _ fun args => rfl
  simp only [if_neg h10]
  exact ⟨fun _ => by trivial, fun n d hnd => by simp at hnd⟩

/-! ### Concrete witness environments -/

/-- Witness heap: every reference holds a StateUpdate over `[0, 100)` at
block 6 (the spec's section 8 scenario). -/
def wDeref : Heap := fun _ => ⟨⟨0, 100⟩, ⟨0, 0⟩, 6⟩

/-- Witness plugin registry: every plugin returns reference 0. -/
def wPlugins : PluginManager := fun _ => ⟨fun _ _ _ => 0⟩

/-- Witness transaction over `[10, 50)`. -/
def wTx : Transaction := ⟨⟨10, 50⟩, 0⟩

/-- Witness verified update over `[0, 100)` at verified block 5. -/
def wU : VerifiedStateUpdate := ⟨⟨⟨0, 100⟩, ⟨0, 0⟩, 6⟩, 5⟩

/-- Witness store returning exactly `wU`. -/
def wStateDB : StateDB := fun _ _ => [wU]

/-- Witness store returning no verified updates. -/
def wEmptyDB : StateDB := fun _ _ => []

/-- Witness heap whose candidate block number 7 differs from
`verifiedBlockNumber + 1 = 6`. -/
def bDeref : Heap := fun _ => ⟨⟨0, 100⟩, ⟨0, 0⟩, 7⟩

/-- Witness verified update over `[60, 100)`, disjoint from `wTx`'s
range `[10, 50)`. -/
def nU : VerifiedStateUpdate := ⟨⟨⟨60, 100⟩, ⟨0, 0⟩, 6⟩, 5⟩

/-- Witness store returning exactly the non-overlapping `nU`. -/
def nStateDB : StateDB := fun _ _ => [nU]

/-- Witness bridge environment whose ledger returns a hash different from
the locally computed internal hash. -/
def eEnvMismatch : BridgeEnv := ⟨fun s => s ++ "h", fun s => s ++ "i", true, fun _ => some "zz"⟩

/-- Witness bridge environment whose mapping write fails. -/
def eEnvFail : BridgeEnv := ⟨fun s => s ++ "h", fun s => s ++ "i", false, fun _ => some "zz"⟩

/-- Witness bridge starting state: nothing written, nothing submitted. -/
def eSt : BridgeState := ⟨[], []⟩

/-! ### Witnesses -/

/-- C9 witness: the section 8 transaction with an empty store answer
succeeds with no state update and no valid ranges. -/
theorem C9_witness : executeTransaction wDeref wPlugins wEmptyDB wTx = .ok ⟨none, []⟩ :=
  C9_empty_store_ok wDeref wPlugins wEmptyDB wTx rfl rfl

/-- C3 witness: the spec's section 8 scenario — transaction `[10, 50)`,
one verified update `[0, 100)` at verified block 5, candidate block 6 —
succeeds with `validRanges = [[10, 50))]`, which is pairwise disjoint,
non-empty and contained in the transaction's range. -/
theorem C3_witness :
    executeTransaction wDeref wPlugins wStateDB wTx = .ok ⟨some 0, [⟨10, 50⟩]⟩ ∧
    List.Pairwise rangesDisjoint [(⟨10, 50⟩ : Range)] ∧
    ∀ r ∈ [(⟨10, 50⟩ : Range)], r.start < r.end_ ∧
      wTx.range.start ≤ r.start ∧ r.end_ ≤ wTx.range.end_ := by
  have h := C3_validRanges wDeref wPlugins wStateDB wTx ⟨some 0, [⟨10, 50⟩]⟩ rfl
  exact ⟨rfl, h.2.1 (by simp [wStateDB]), h.2.2⟩

/-- C4 witness: the same scenario with candidate block 7 instead of 6
fails with `BlockNumberMismatch`. -/
theorem C4_witness :
    executeTransaction bDeref wPlugins wStateDB wTx = .error .blockNumberMismatch :=
  (C4_blockNumberMismatch_iff bDeref wPlugins wStateDB wTx).mpr
    ⟨rfl, [], wU, [], ⟨none, []⟩, rfl, rfl, rfl, by decide, by decide⟩

/-- C5 witness: the spec's section 8 scenario — transaction `[10, 50)`,
verified update `[60, 100)` (disjoint) — fails with `RangeMismatch`. -/
theorem C5_witness :
    executeTransaction wDeref wPlugins nStateDB wTx = .error .rangeMismatch :=
  ((C5_nonoverlap_rangeMismatch wDeref wPlugins nStateDB wTx nU (by decide)).2.2)
    [] [] ⟨none, []⟩ rfl rfl rfl rfl

/-- C1 witness: instantiating the amended characterization at the
counterexample environment reproduces the `InconsistentTransition`
failure. -/
theorem C1_witness :
    executeTransaction cDeref cPlugins cStateDB cTx = .error .inconsistentTransition :=
  (C1_reference_identity cDeref cPlugins cStateDB cTx).1.mpr
    ⟨rfl, [cU1], cU2, [], ⟨some 0, [⟨0, 5⟩]⟩, 0, rfl, rfl, rfl, rfl, by decide, rfl, by decide⟩

/-- C2 witness: with locally computed internal hash `"tih"` and returned
hash `"zz"`, the call fails with `HashMismatch`, the only written mapping
entry is `("th", "tih")`, and the written internal hash differs from the
returned hash. -/
theorem C2_witness :
    (sendRawTransaction eEnvMismatch eSt "t").1 = .error .hashMismatch ∧
    (sendRawTransaction eEnvMismatch eSt "t").2.mapping = [("th", "tih")] ∧
    ("tih" : String) ≠ "zz" := by
  have h := (C2_hashMismatch eEnvMismatch eSt "t" "zz" rfl rfl).1 (by decide)
  exact ⟨h.1, h.2.1, h.2.2⟩

/-- C7 witness: a failing mapping write aborts the call with the
persistence error, leaving the external world untouched. -/
theorem C7_witness :
    (sendRawTransaction eEnvFail eSt "t").1 = .error .mappingPersist ∧
    (sendRawTransaction eEnvFail eSt "t").2 = eSt :=
  C7_mapping_write_failure eEnvFail eSt "t" rfl

/-- C6 witness: the round-trip at a concrete 4-byte selector, 32-byte
timestamp, 32-byte queue origin, 20-byte entrypoint and 2-byte calldata. -/
theorem C6_witness :
    decodeExecutionMgrCalldata (encodeExecutionMgrCalldata [1, 2, 3, 4]
        (List.replicate 32 5) (List.replicate 32 6) (List.replicate 20 7) [8, 9]) =
      (List.replicate 20 7, List.replicate 32 5, List.replicate 32 6, [8, 9]) ∧
    getExecutionMgrTxData [1, 2, 3, 4] (List.replicate 20 7) [8, 9] =
      encodeExecutionMgrCalldata [1, 2, 3, 4] (List.replicate 32 0)
        (List.replicate 32 0) (List.replicate 20 7) [8, 9] :=
  C6_calldata_roundtrip [1, 2, 3, 4] (List.replicate 32 5) (List.replicate 32 6)
    (List.replicate 20 7) [8, 9] (by decide) (by decide) (by decide) (by decide)

/-- C10 witness: extracting the timestamp and queue-origin fields from a
concrete packing yields 32 zero bytes each. -/
theorem C10_witness :
    ((getExecutionMgrTxData [1, 2, 3, 4] (List.replicate 20 7) [8, 9]).drop 4).take 32 =
      List.replicate 32 0 ∧
    (((getExecutionMgrTxData [1, 2, 3, 4] (List.replicate 20 7) [8, 9]).drop 4).drop 32).take 32 =
      List.replicate 32 0 :=
  (C10_zero_timestamp_queueOrigin [1, 2, 3, 4] (List.replicate 20 7) [8, 9]).2.2.2.2 (by decide)

/-- C8 witness: `eth_gasPrice` expects zero parameters; a call carrying
one parameter fails with `InvalidParametersError`. -/
theorem C8_witness :
    handleRequest Web3RpcMethods.gasPrice (some [Param.obj 0]) = .error .invalidParameters :=
  ((C8_arity_dispatch Web3RpcMethods.gasPrice (some [Param.obj 0])).2 0 Param.undef rfl).1.mpr
    (by decide)

end Spec2Proof
